import Mathlib

/-!
Verification development for the effortless-config settings registry
(`effortless_config/config.py`).  The Python code is shallowly embedded:
Python values become the inductive `PyVal`, dictionaries become ordered
association lists with Python-dict insertion semantics (`dinsert`), class
declaration (`ConfigMeta.__new__`) becomes `mkConfigClass`, and the runtime
operations (`set_group`, `reset_to_defaults`, `parse_args`, `override`,
hash/equality) become functions over a `ConfigClass` record whose `attrs`
field models the class attribute table (own namespace first, then base
classes, first hit wins, as in Python MRO lookup).
-/

/-- Association-list lookup, scanning left to right (Python dict lookup /
class attribute lookup over our flattened table). -/
def dlookup {α : Type} : List (String × α) → String → Option α
  | [], _ => none
  | (k1, v) :: rest, k => if k1 = k then some v else dlookup rest k

/-- Python dict assignment / `setattr`: replace the (unique, for Nodup-keyed
lists) binding in place if the key is present, else append at the end.  This
matches CPython's insertion-ordered dict update semantics. -/
def dinsert {α : Type} : List (String × α) → String → α → List (String × α)
  | [], k, v => [(k, v)]
  | p :: rest, k, v => if p.1 = k then (k, v) :: rest else p :: dinsert rest k v

/-- Primitive Python values (the element kind allowed inside lists/dicts). -/
inductive PyPrim
  | int (n : Int)
  | float (q : Rat)
  | str (s : String)
  | bool (b : Bool)
  | none
deriving DecidableEq

/-- Python values as they occur in this library: primitives, lists and dicts
of primitives, and complex numbers (used only as an example of an
unsupported kind). -/
inductive PyVal
  | prim (p : PyPrim)
  | list (xs : List PyPrim)
  | dict (entries : List (PyPrim × PyPrim))
  | complex (re im : Rat)
deriving DecidableEq

/-- Python runtime types relevant to `Setting` validation. -/
inductive PyType
  | int
  | float
  | str
  | bool
  | noneType
  | list
  | dict
  | complex
deriving DecidableEq

/-- Python's `type(v)` restricted to our value universe. -/
def PyVal.pytype : PyVal → PyType
  | .prim (.int _) => .int
  | .prim (.float _) => .float
  | .prim (.str _) => .str
  | .prim (.bool _) => .bool
  | .prim .none => .noneType
  | .list _ => .list
  | .dict _ => .dict
  | .complex _ _ => .complex

/-- `SUPPORTED_TYPES = [int, float, str, bool, type(None)]` (config.py line 10).
Note: `list` and `dict` are NOT in this list in the source. -/
def SUPPORTED_TYPES : List PyType := [.int, .float, .str, .bool, .noneType]

/-- `_get_common_type(values)`: the type of the first value provided all
others have the same type, else a ValueError.  The empty case cannot be
reached from `Setting.make` (it is only called with nonempty kwargs). -/
def _get_common_type : List PyVal → Except String PyType
  | [] => .error "Not all values have the same type"
  | v :: rest =>
    if rest.all (fun w => w.pytype = v.pytype) then .ok v.pytype
    else .error "Not all values have the same type"

/-- A constructed `Setting` descriptor: `default`, `group_values` (the kwargs,
an insertion-ordered mapping from group name to value) and the inferred
`type`. -/
structure Setting where
  default : PyVal
  group_values : List (String × PyVal)
  type : PyType
deriving DecidableEq

/-- `Setting.__init__(default, **kwargs)` (config.py lines 16-45): infer the
type (type of `default` if not None; else common type of the group values if
any; else `str`), then fail unless the type is in `SUPPORTED_TYPES`. -/
def Setting.make (default : PyVal) (kwargs : List (String × PyVal)) :
    Except String Setting :=
  match (if default = PyVal.prim .none then
           if kwargs ≠ [] then _get_common_type (kwargs.map Prod.snd)
           else .ok PyType.str
         else .ok default.pytype : Except String PyType) with
  | .error e => .error e
  | .ok ty =>
    if ty ∈ SUPPORTED_TYPES then .ok ⟨default, kwargs, ty⟩
    else .error "is not a supported type"

/-- Uppercase ASCII letter test (the `[A-Z]` character class). -/
def isUpperAZ (c : Char) : Bool := 'A' ≤ c && c ≤ 'Z'

/-- The `[A-Z0-9_]` character class of `SETTING_FORMAT`. -/
def isSettingFormatChar (c : Char) : Bool :=
  isUpperAZ c || ('0' ≤ c && c ≤ '9') || c = '_'

/-- `re.match(SETTING_FORMAT, key)` for `SETTING_FORMAT = '[A-Z][A-Z0-9_]*'`
(config.py lines 254-256).  Python's `re.match` anchors only at the START of
the string: it succeeds iff some prefix of `key` matches the pattern.  Since
`[A-Z0-9_]*` matches the empty string, a prefix match exists exactly when the
first character is in `[A-Z]`.  This is a weaker test than a full match. -/
def re_match_setting_format (key : String) : Bool :=
  match key.data with
  | [] => false
  | c :: _ => isUpperAZ c

/-- Full-match reading of `SETTING_FORMAT`, following the spec's words
("keys are uppercase-snake-case identifiers matching `[A-Z][A-Z0-9_]*`"):
the whole name must match the pattern.  Declared for refinement comparison
with the source's `re_match_setting_format`. -/
def fullmatch_setting_format (key : String) : Bool :=
  match key.data with
  | [] => false
  | c :: rest => isUpperAZ c && rest.all isSettingFormatChar

/-- ASCII lowercasing of one character, modelling Python `str.lower()` on the
characters that can appear in (uppercase-validated) setting names. -/
def pyCharLower (c : Char) : Char :=
  if isUpperAZ c then Char.ofNat (c.toNat + 32) else c

/-- `name.lower()` (config.py `_config_name_to_arg_name`). -/
def strToLower (s : String) : String := ⟨s.data.map pyCharLower⟩

/-- `key.startswith('_')`. -/
def startsWithUnderscore (s : String) : Bool :=
  match s.data with
  | [] => false
  | c :: _ => c = '_'

/-- A value as it appears in a class body namespace, before `ConfigMeta.__new__`
processes it.  `settingDecl` is an already-constructed `Setting` object (its
construction, with possible ValueError, happened while evaluating the class
body); `plain` is a bare value; `method` is any callable or classmethod;
`groupsDecl`/`settingsDecl` are the list/dict values of the reserved
`groups`/`_settings` keys. -/
inductive NsVal
  | settingDecl (s : Setting)
  | plain (v : PyVal)
  | method
  | groupsDecl (gs : List String)
  | settingsDecl (tbl : List (String × Setting))
deriving DecidableEq

/-- A class attribute as stored in the flattened attribute table. -/
inductive Attr
  | val (v : PyVal)
  | groupsAttr (gs : List String)
  | settingsAttr (tbl : List (String × Setting))
  | method
deriving DecidableEq

abbrev Attrs := List (String × Attr)

/-- Pass-through conversion for namespace entries that reach the final `else`
branch of the `ConfigMeta.__new__` loop (`new_namespace[key] = value`). -/
def NsVal.asAttr : NsVal → Attr
  | .settingDecl s => .val s.default
  | .plain v => .val v
  | .method => .method
  | .groupsDecl gs => .groupsAttr gs
  | .settingsDecl t => .settingsAttr t

/-- A declared configuration class: its name and its flattened attribute
table (own namespace entries first, then entries inherited from bases that
are not shadowed — Python MRO lookup order). -/
structure ConfigClass where
  name : String
  attrs : Attrs
deriving DecidableEq

/-- `getattr(cls, k)` over the flattened attribute table (`none` = the
attribute does not exist, i.e. `hasattr` is false).  Object-level dunder
attributes are not modelled. -/
def cgetattr (c : ConfigClass) (k : String) : Option Attr := dlookup c.attrs k

/-- `setattr(cls, k, v)`: replace-or-append in the class's own table.  (For a
key found only in a base this shadows the base entry; since each class holds
its own flattened copy, mutating one class never affects another, as in
Python.) -/
def csetattr (c : ConfigClass) (k : String) (v : Attr) : ConfigClass :=
  ⟨c.name, dinsert c.attrs k v⟩

/-- `namespace.get('groups', [])` (config.py line 53). -/
def namespaceGroups (ns : List (String × NsVal)) : List String :=
  match dlookup ns "groups" with
  | some (.groupsDecl gs) => gs
  | _ => []

/-- `namespace.get('_settings', {})` (config.py line 56). -/
def namespaceSettings (ns : List (String × NsVal)) : List (String × Setting) :=
  match dlookup ns "_settings" with
  | some (.settingsDecl t) => t
  | _ => []

/-- The member-processing loop of `ConfigMeta.__new__` (config.py lines
59-88), threading the `settings` table and the `new_namespace` under
construction.  Branches, in source order: skip `groups`; a `Setting` value is
key-validated, group-checked and registered; a bare non-callable value whose
key does not start with `_` and is not already registered becomes a shorthand
`Setting(default=value)`; everything else passes through unchanged. -/
def buildNamespace (groups : List String) :
    List (String × NsVal) → List (String × Setting) → Attrs →
    Except String (List (String × Setting) × Attrs)
  | [], settings, newns => .ok (settings, newns)
  | (key, v) :: rest, settings, newns =>
    if key = "groups" then buildNamespace groups rest settings newns
    else
      match v with
      | .settingDecl st =>
        if re_match_setting_format key then
          if (st.group_values.map Prod.fst).all (fun g => decide (g ∈ groups)) then
            buildNamespace groups rest (dinsert settings key st)
              (dinsert newns key (.val st.default))
          else .error "Undefined groups, did you set groups = [...] in your config class?"
        else .error "Settings must be in the format [A-Z][A-Z0-9_]*"
      | .plain pv =>
        if !startsWithUnderscore key && (dlookup settings key).isNone then
          if re_match_setting_format key then
            match Setting.make pv [] with
            | .ok st =>
              buildNamespace groups rest (dinsert settings key st)
                (dinsert newns key (.val pv))
            | .error e => .error e
          else .error "Settings must be in the format [A-Z][A-Z0-9_]*"
        else buildNamespace groups rest settings (dinsert newns key (NsVal.asAttr v))
      | other => buildNamespace groups rest settings (dinsert newns key other.asAttr)

/-- Flatten a class's own namespace with its bases' attribute tables:
own entries first, then each base's entries whose keys are not already
present (first definition wins — Python MRO attribute resolution). -/
def mroFlatten (own : Attrs) (bases : List ConfigClass) : Attrs :=
  bases.foldl (fun acc b => acc ++ b.attrs.filter (fun p => (dlookup acc p.1).isNone)) own

/-- `ConfigMeta.__new__` (config.py lines 49-93): read `groups` and
`_settings` from the declared namespace, run the member loop, then store the
final `settings` table under `_settings` (in Python the dict object stored at
line 57 is the same object the loop mutates, so the class ends up holding the
final table). -/
def mkConfigClass (name : String) (bases : List ConfigClass)
    (ns : List (String × NsVal)) : Except String ConfigClass :=
  match buildNamespace (namespaceGroups ns) ns (namespaceSettings ns)
      [("groups", Attr.groupsAttr (namespaceGroups ns)),
       ("_settings", Attr.settingsAttr (namespaceSettings ns))] with
  | .error e => .error e
  | .ok (settings, newns) =>
    .ok ⟨name, mroFlatten (dinsert newns "_settings" (Attr.settingsAttr settings)) bases⟩

/-- `cls.groups` attribute read. -/
def ConfigClass.getGroups (c : ConfigClass) : List String :=
  match cgetattr c "groups" with
  | some (.groupsAttr gs) => gs
  | _ => []

/-- `cls._settings` attribute read. -/
def ConfigClass.getSettings (c : ConfigClass) : List (String × Setting) :=
  match cgetattr c "_settings" with
  | some (.settingsAttr t) => t
  | _ => []

/-- The `Config` base class itself, as produced by `ConfigMeta.__new__` on the
`Config` class body (config.py lines 118-209): no `groups` assignment (only
an annotation), and the methods `__init__`, `set_group`, `parse_args`,
`reset_to_defaults`, `override`, all of which pass through the loop's final
branch. -/
def ConfigBase : ConfigClass :=
  (mkConfigClass "Config" []
    [("__init__", .method), ("set_group", .method), ("parse_args", .method),
     ("reset_to_defaults", .method), ("override", .method)]).toOption.getD ⟨"", []⟩

/-- `Config.set_group(group_name)` (config.py lines 129-144): raise
`ValueError('Unknown group: ...')` when the name is not in `cls.groups`
(note: no special case for "default" in the source); otherwise set every
setting to its group value when the group names one, else to its default. -/
def ConfigClass.set_group (c : ConfigClass) (g : String) : Except String ConfigClass :=
  if g ∉ c.getGroups then .error ("Unknown group: " ++ g)
  else
    .ok (c.getSettings.foldl
      (fun cc p =>
        match dlookup p.2.group_values g with
        | some v => csetattr cc p.1 (.val v)
        | none => csetattr cc p.1 (.val p.2.default)) c)

/-- `Config.reset_to_defaults()` (config.py lines 195-201). -/
def ConfigClass.reset_to_defaults (c : ConfigClass) : ConfigClass :=
  c.getSettings.foldl (fun cc p => csetattr cc p.1 (.val p.2.default)) c

/-- The result of argparse parsing, as consumed by `parse_args` (the parsing
collaborator itself is external to the core): `configuration` is `some s`
when `--configuration s` was supplied and `none` otherwise (argparse then
substitutes its declared `default='default'`); `values` maps each argparse
dest (the lowercased setting name) to its parsed value when the flag was
supplied — an absent key models an unsupplied flag (`None`).  For a bool
setting the parsed value is the raw string token (argparse was given
`type=str, choices=['true','false']`). -/
structure ParsedArgs where
  configuration : Option String
  values : List (String × PyVal)
deriving DecidableEq

/-- The mutation phase of `Config.parse_args` (config.py lines 178-193),
applied to an already-parsed argument set: if `cls.groups` is nonempty,
apply the resolved `--configuration` value (`reset_to_defaults` for
"default", else `set_group`); then overwrite each setting whose flag was
supplied with the parsed value, coercing `'true'`/`'false'` for bool
settings (`arg_value == 'true'`). -/
def ConfigClass.parse_args (c : ConfigClass) (args : ParsedArgs) :
    Except String ConfigClass :=
  match (if c.getGroups.isEmpty then .ok c
         else if args.configuration.getD "default" = "default" then .ok c.reset_to_defaults
         else c.set_group (args.configuration.getD "default") : Except String ConfigClass) with
  | .error e => .error e
  | .ok c1 =>
    .ok (c1.getSettings.foldl
      (fun cc p =>
        match dlookup args.values (strToLower p.1) with
        | some raw =>
          csetattr cc p.1 (.val
            (if p.2.type = PyType.bool then
              PyVal.prim (.bool (raw = PyVal.prim (.str "true")))
            else raw))
        | none => cc) c1)

/-- The `_OverrideContextManager.__init__` loop (config.py lines 215-225):
for each `(key, value)` pair, in order, raise `ValueError` if the class has
no such attribute, else record the current attribute value and set the new
one.  On error the mutations already made persist (the class is global
state), so the error carries the class state at the time of the raise. -/
def overrideLoop (c : ConfigClass) (orig : List (String × Attr)) :
    List (String × PyVal) →
    Except (String × ConfigClass) (List (String × Attr) × ConfigClass)
  | [] => .ok (orig, c)
  | (key, value) :: rest =>
    match cgetattr c key with
    | none => .error ("Unknown config flag: " ++ key, c)
    | some original =>
      overrideLoop (csetattr c key (Attr.val value)) (dinsert orig key original) rest

/-- `Config.override(**kwargs)` (config.py lines 203-209): run the context
manager constructor; on success return the recorded original values and the
mutated class. -/
def ConfigClass.override (c : ConfigClass) (kwargs : List (String × PyVal)) :
    Except (String × ConfigClass) (List (String × Attr) × ConfigClass) :=
  overrideLoop c [] kwargs

/-- `_OverrideContextManager.__exit__` (config.py lines 231-233): restore
every recorded original value.  The Python `__exit__` ignores its exception
arguments and is invoked by `with` on both normal exit and error unwind, so
a single exit function models both paths. -/
def overrideExit (orig : List (String × Attr)) (c : ConfigClass) : ConfigClass :=
  orig.foldl (fun cc p => csetattr cc p.1 p.2) c

/-- Lexicographic string comparison by code point (Python `<=` on `str`,
as used by `sorted`). -/
def charListLe : List Char → List Char → Bool
  | [], _ => true
  | _ :: _, [] => false
  | a :: as, b :: bs =>
    if a.toNat < b.toNat then true
    else if a.toNat = b.toNat then charListLe as bs
    else false

def strLe (a b : String) : Bool := charListLe a.data b.data

/-- Insert into a sorted list (helper for `sortStrs`). -/
def sortInsert (k : String) : List String → List String
  | [] => [k]
  | x :: xs => if strLe k x then k :: x :: xs else x :: sortInsert k xs

/-- Python's `sorted` on a list of strings (insertion sort; stable, but
string order is total so stability is irrelevant here). -/
def sortStrs : List String → List String
  | [] => []
  | x :: xs => sortInsert x (sortStrs xs)

/-- `getattr(cls, key)` for a settings key, as used by `__hash__`/`__repr__`:
the stored current value.  (For the classes these methods are used on, every
settings key holds a plain value; the fallback covers the unreachable other
cases.) -/
def getattrPy (c : ConfigClass) (k : String) : PyVal :=
  match cgetattr c k with
  | some (.val v) => v
  | _ => PyVal.prim .none

/-- The tuple hashed by `ConfigMeta.__hash__` (config.py lines 110-112):
`tuple(getattr(cls, key) for key in sorted(cls._settings))`.  Python's
integer `hash` of that tuple is modelled by the tuple itself (an injective
idealization: tuple equality in place of hash equality). -/
def hashTuple (c : ConfigClass) : List PyVal :=
  (sortStrs (c.getSettings.map Prod.fst)).map (fun k => getattrPy c k)

/-- `ConfigMeta.__eq__` (config.py lines 114-115): `isinstance(other,
ConfigMeta) and hash(other) == hash(cls)`.  Both operands are configuration
classes here, so the isinstance test holds. -/
def configEq (c other : ConfigClass) : Bool := hashTuple other = hashTuple c

/-- The spec's equality criterion for C3, from its words: the two classes
"resolve to identical values for the sorted union of their setting names"
(attribute lookup compared on every name in the union; a missing attribute
resolves to nothing).  Declared for refinement comparison with `configEq`. -/
def resolvesIdenticallyOnUnion (c d : ConfigClass) : Bool :=
  (sortStrs ((c.getSettings.map Prod.fst ++ d.getSettings.map Prod.fst).dedup)).all
    (fun k => cgetattr c k = cgetattr d k)

/-! Concrete configuration classes used by the claim theorems' witnesses and
counterexamples, mirroring declarations from the repository's tests. -/

/-- Extract a successfully constructed Setting. -/
def exSetting (r : Except String Setting) : Setting :=
  r.toOption.getD ⟨PyVal.prim .none, [], PyType.str⟩

/-- Extract a successfully constructed configuration class. -/
def exClass (r : Except String ConfigClass) : ConfigClass :=
  r.toOption.getD ⟨"", []⟩

/-- `setting(10, a=20, b=30)` from `test_set_default_group`. -/
def c1setFOO : Setting :=
  exSetting (Setting.make (PyVal.prim (.int 10))
    [("a", PyVal.prim (.int 20)), ("b", PyVal.prim (.int 30))])

/-- The class of `test_set_default_group`: `groups = ['a','b']`, `FOO = setting(10, a=20, b=30)`. -/
def c1cfgA : ConfigClass :=
  exClass (mkConfigClass "config" [ConfigBase]
    [("groups", .groupsDecl ["a", "b"]), ("FOO", .settingDecl c1setFOO)])

/-- The class of `test_set_default_group_without_groups`: no groups, `FOO = 10`. -/
def c1cfgB : ConfigClass :=
  exClass (mkConfigClass "config" [ConfigBase] [("FOO", .plain (PyVal.prim (.int 10)))])

/-- A class declaring a single setting named `A` with current value 1. -/
def c3xA : ConfigClass :=
  exClass (mkConfigClass "x" [] [("A", .plain (PyVal.prim (.int 1)))])

/-- A class declaring a single setting named `B` with current value 1. -/
def c3yB : ConfigClass :=
  exClass (mkConfigClass "y" [] [("B", .plain (PyVal.prim (.int 1)))])

/-- Settings `A = 1`, `B = 'foo'`, `C = true` declared in one order... -/
def c3w1 : ConfigClass :=
  exClass (mkConfigClass "c" [ConfigBase]
    [("A", .plain (PyVal.prim (.int 1))), ("B", .plain (PyVal.prim (.str "foo"))),
     ("C", .plain (PyVal.prim (.bool true)))])

/-- ...and the same settings declared in the reverse order (cf. `test_equal`). -/
def c3w2 : ConfigClass :=
  exClass (mkConfigClass "d" [ConfigBase]
    [("C", .plain (PyVal.prim (.bool true))), ("B", .plain (PyVal.prim (.str "foo"))),
     ("A", .plain (PyVal.prim (.int 1)))])

/-- The class of the override tests: `FOO = setting(10)`. -/
def c4cfg : ConfigClass :=
  exClass (mkConfigClass "config" [ConfigBase]
    [("FOO", .settingDecl (exSetting (Setting.make (PyVal.prim (.int 10)) [])))])

def c4res1 : List (String × Attr) × ConfigClass :=
  (c4cfg.override [("FOO", PyVal.prim (.int 100))]).toOption.getD ([], ⟨"", []⟩)

def c4res2 : List (String × Attr) × ConfigClass :=
  (c4res1.2.override [("FOO", PyVal.prim (.int 1000))]).toOption.getD ([], ⟨"", []⟩)

def c5S1 : Setting :=
  exSetting (Setting.make (PyVal.prim (.int 10)) [("foo", PyVal.prim (.int 20))])

def c5S2 : Setting :=
  exSetting (Setting.make (PyVal.prim (.bool true)) [("bar", PyVal.prim (.bool false))])

def c5S3 : Setting :=
  exSetting (Setting.make (PyVal.prim (.str "a"))
    [("foo", PyVal.prim (.str "b")), ("bar", PyVal.prim (.str "c"))])

/-- The class of `test_set_group_and_option_from_args`. -/
def c5cfg : ConfigClass :=
  exClass (mkConfigClass "config" [ConfigBase]
    [("groups", .groupsDecl ["foo", "bar"]), ("S1", .settingDecl c5S1),
     ("S2", .settingDecl c5S2), ("S3", .settingDecl c5S3),
     ("S4", .plain (PyVal.prim (.float (1/2 : Rat))))])

/-- `['--s3', 'd', '--configuration', 'foo', '--s4', '1.5']` after parsing. -/
def c5args : ParsedArgs :=
  ⟨some "foo", [("s3", PyVal.prim (.str "d")), ("s4", PyVal.prim (.float (3/2 : Rat)))]⟩

/-- The class of `test_set_group`, settings S1-S4 only. -/
def c6cfg : ConfigClass :=
  exClass (mkConfigClass "config" [ConfigBase]
    [("groups", .groupsDecl ["foo", "bar"]),
     ("S1", .settingDecl (exSetting (Setting.make (PyVal.prim (.int 10)) [("foo", PyVal.prim (.int 20))]))),
     ("S2", .settingDecl (exSetting (Setting.make (PyVal.prim (.bool true)) [("bar", PyVal.prim (.bool false))]))),
     ("S3", .settingDecl (exSetting (Setting.make (PyVal.prim (.str "a")) [("foo", PyVal.prim (.str "b")), ("bar", PyVal.prim (.str "c"))]))),
     ("S4", .plain (PyVal.prim (.float (1/2 : Rat))))])

/-- A class with settings `A = 1` and `B = 2`. -/
def c7cfg : ConfigClass :=
  exClass (mkConfigClass "config" [ConfigBase]
    [("A", .plain (PyVal.prim (.int 1))), ("B", .plain (PyVal.prim (.int 2)))])

/-- A class declaring the shorthand `Xabc = 5`, whose name matches
`[A-Z][A-Z0-9_]*` only as a prefix, not fully. -/
def c8cfg : ConfigClass :=
  exClass (mkConfigClass "config" [ConfigBase] [("Xabc", .plain (PyVal.prim (.int 5)))])

/-- `setting(123)`, used to exercise the rejection branch. -/
def c8set : Setting := exSetting (Setting.make (PyVal.prim (.int 123)) [])

/-- Parent class declaring the setting `A = setting(1)`. -/
def c9parent : ConfigClass :=
  exClass (mkConfigClass "Parent" [ConfigBase]
    [("A", .settingDecl (exSetting (Setting.make (PyVal.prim (.int 1)) [])))])

/-- Child class declared by inheriting from `c9parent` with an empty body. -/
def c9child : ConfigClass := exClass (mkConfigClass "Child" [c9parent] [])

/-- A class with one setting `FOO = 10` (and the inherited classmethods). -/
def c10cfg : ConfigClass :=
  exClass (mkConfigClass "config" [ConfigBase] [("FOO", .plain (PyVal.prim (.int 10)))])

/-! Lemmas about the association-list dictionary operations. -/

theorem dlookup_dinsert {α : Type} (d : List (String × α)) (k k' : String) (v : α) :
    dlookup (dinsert d k v) k' = if k = k' then some v else dlookup d k' := by
  induction d with
  | nil => simp [dinsert, dlookup]
  | cons p rest ih =>
    by_cases h : p.1 = k
    · rw [dinsert, if_pos h, dlookup, dlookup]
      by_cases h2 : k = k'
      · rw [if_pos h2, if_pos h2]
      · rw [if_neg h2, if_neg h2, if_neg (fun e : p.1 = k' => h2 (h.symm.trans e))]
    · rw [dinsert, if_neg h, dlookup, dlookup, ih]
      by_cases h2 : p.1 = k'
      · have hk : ¬ k = k' := fun e => h (h2.trans e.symm)
        rw [if_pos h2, if_neg hk, if_pos h2]
      · rw [if_neg h2]
        by_cases h3 : k = k'
        · rw [if_pos h3, if_pos h3]
        · rw [if_neg h3, if_neg h3, if_neg h2]

theorem dlookup_eq_none_of_notmem {α : Type} (d : List (String × α)) (k : String)
    (h : k ∉ d.map Prod.fst) : dlookup d k = none := by
  induction d with
  | nil => rfl
  | cons p rest ih =>
    simp only [List.map_cons, List.mem_cons] at h
    push_neg at h
    rw [dlookup, if_neg (fun e => h.1 e.symm)]
    exact ih h.2

theorem dinsert_of_notmem {α : Type} (d : List (String × α)) (k : String) (v : α)
    (h : dlookup d k = none) : dinsert d k v = d ++ [(k, v)] := by
  induction d with
  | nil => rfl
  | cons p rest ih =>
    by_cases hp : p.1 = k
    · simp [dlookup, hp] at h
    · simp only [dlookup, hp, if_false] at h
      simp [dinsert, hp, ih h]

theorem mem_map_fst_dinsert {α : Type} (d : List (String × α)) (k k' : String) (v : α) :
    k' ∈ (dinsert d k v).map Prod.fst ↔ k' = k ∨ k' ∈ d.map Prod.fst := by
  induction d with
  | nil => simp [dinsert]
  | cons p rest ih =>
    by_cases hp : p.1 = k
    · simp only [dinsert, if_pos hp, List.map_cons, List.mem_cons]
      rw [hp]
      tauto
    · simp only [dinsert, if_neg hp, List.map_cons, List.mem_cons, ih]
      tauto

theorem nodup_dinsert {α : Type} (d : List (String × α)) (k : String) (v : α)
    (h : (d.map Prod.fst).Nodup) : ((dinsert d k v).map Prod.fst).Nodup := by
  induction d with
  | nil => simp [dinsert]
  | cons p rest ih =>
    simp only [List.map_cons, List.nodup_cons] at h
    by_cases hp : p.1 = k
    · subst hp
      show ((if p.1 = p.1 then (p.1, v) :: rest else p :: dinsert rest p.1 v).map Prod.fst).Nodup
      rw [if_pos rfl]
      simp only [List.map_cons, List.nodup_cons]
      exact h
    · simp only [dinsert, if_neg hp, List.map_cons, List.nodup_cons]
      constructor
      · intro hm
        rcases (mem_map_fst_dinsert rest k p.1 v).1 hm with e | hm2
        · exact hp e
        · exact h.1 hm2
      · exact ih h.2

theorem dlookup_of_mem_nodup {α : Type} {d : List (String × α)} {k : String} {v : α}
    (h : (d.map Prod.fst).Nodup) (hm : (k, v) ∈ d) : dlookup d k = some v := by
  induction d with
  | nil => simp at hm
  | cons p rest ih =>
    simp only [List.map_cons, List.nodup_cons] at h
    rcases List.mem_cons.1 hm with e | hm2
    · subst e; simp [dlookup]
    · have hk : p.1 ≠ k := by
        intro e
        exact h.1 (e ▸ List.mem_map_of_mem Prod.fst hm2)
      simp [dlookup, hk, ih h.2 hm2]

theorem dinsert_cancel {α : Type} {d : List (String × α)} {k : String} {a : α} (v : α)
    (hnd : (d.map Prod.fst).Nodup) (ha : dlookup d k = some a) :
    dinsert (dinsert d k v) k a = d := by
  induction d with
  | nil => simp [dlookup] at ha
  | cons p rest ih =>
    simp only [List.map_cons, List.nodup_cons] at hnd
    by_cases hp : p.1 = k
    · simp only [dlookup, hp, if_true] at ha
      have : p = (k, a) := by
        cases p
        simp_all
      subst this
      simp [dinsert]
    · simp only [dlookup, hp, if_false] at ha
      simp [dinsert, hp, ih hnd.2 ha]

theorem isSome_dlookup_dinsert {α : Type} (d : List (String × α)) (k k' : String) (v : α)
    (h : (dlookup d k').isSome) : (dlookup (dinsert d k v) k').isSome := by
  rw [dlookup_dinsert]
  by_cases e : k = k' <;> simp [e, h]

theorem dinsert_comm {α : Type} {d : List (String × α)} {k1 k2 : String} (v1 v2 : α)
    (hne : k1 ≠ k2) (h2 : (dlookup d k2).isSome) :
    dinsert (dinsert d k1 v1) k2 v2 = dinsert (dinsert d k2 v2) k1 v1 := by
  induction d with
  | nil => simp [dlookup] at h2
  | cons p rest ih =>
    by_cases ha : p.1 = k1
    · have hb : ¬ p.1 = k2 := fun e => hne (ha.symm.trans e)
      have hne2 : ¬ k2 = k1 := fun e => hne e.symm
      simp [dinsert, ha, hb, hne, hne2]
    · by_cases hb : p.1 = k2
      · have hne2 : ¬ k2 = k1 := fun e => hne e.symm
        simp [dinsert, ha, hb, hne, hne2]
      · have h2t : (dlookup rest k2).isSome := by
          simpa [dlookup, hb] using h2
        simp [dinsert, ha, hb, ih h2t]

theorem dlookup_append {α : Type} (a b : List (String × α)) (k : String) :
    dlookup (a ++ b) k =
      match dlookup a k with
      | some v => some v
      | none => dlookup b k := by
  induction a with
  | nil => simp [dlookup]
  | cons p rest ih =>
    by_cases hp : p.1 = k <;> simp [dlookup, hp, ih]

theorem dlookup_filter_key {α : Type} (d : List (String × α)) (k : String)
    (pred : String × α → Bool) (hp : ∀ p : String × α, p.1 = k → pred p = true) :
    dlookup (d.filter pred) k = dlookup d k := by
  induction d with
  | nil => rfl
  | cons p rest ih =>
    by_cases hk : p.1 = k
    · rw [List.filter_cons, hp p hk]
      simp [dlookup, hk]
    · rw [List.filter_cons]
      cases hpr : pred p <;> simp [dlookup, hk, ih]

/-! Lemmas about class attribute access and folds of `setattr` updates. -/

theorem cgetattr_csetattr (c : ConfigClass) (k k' : String) (v : Attr) :
    cgetattr (csetattr c k v) k' = if k = k' then some v else cgetattr c k' :=
  dlookup_dinsert c.attrs k k' v

theorem csetattr_nodup (c : ConfigClass) (k : String) (v : Attr)
    (h : (c.attrs.map Prod.fst).Nodup) :
    (((csetattr c k v).attrs).map Prod.fst).Nodup :=
  nodup_dinsert c.attrs k v h

theorem csetattr_isSome (c : ConfigClass) (k k' : String) (v : Attr)
    (h : (cgetattr c k').isSome) : (cgetattr (csetattr c k v) k').isSome :=
  isSome_dlookup_dinsert c.attrs k k' v h

theorem csetattr_cancel (c : ConfigClass) (k : String) (a v : Attr)
    (hnd : (c.attrs.map Prod.fst).Nodup) (h : cgetattr c k = some a) :
    csetattr (csetattr c k v) k a = c := by
  cases c with
  | mk nm attrs =>
    show (⟨nm, dinsert (dinsert attrs k v) k a⟩ : ConfigClass) = ⟨nm, attrs⟩
    rw [dinsert_cancel v hnd h]

theorem cgetattr_foldl_notmem {β : Type} (step : ConfigClass → String × β → ConfigClass)
    (H1 : ∀ cc p k, k ≠ p.1 → cgetattr (step cc p) k = cgetattr cc k)
    (l : List (String × β)) (c : ConfigClass) (k : String) (hk : k ∉ l.map Prod.fst) :
    cgetattr (l.foldl step c) k = cgetattr c k := by
  induction l generalizing c with
  | nil => rfl
  | cons p rest ih =>
    simp only [List.map_cons, List.mem_cons] at hk
    push_neg at hk
    rw [List.foldl_cons, ih _ hk.2, H1 _ _ _ hk.1]

theorem cgetattr_foldl_mem {β : Type} (step : ConfigClass → String × β → ConfigClass)
    (H1 : ∀ cc p k, k ≠ p.1 → cgetattr (step cc p) k = cgetattr cc k)
    {k : String} {b : β} (res : Option Attr)
    (H2 : ∀ cc, cgetattr (step cc (k, b)) k = res)
    (l : List (String × β)) (c : ConfigClass)
    (hnd : (l.map Prod.fst).Nodup) (hl : dlookup l k = some b) :
    cgetattr (l.foldl step c) k = res := by
  induction l generalizing c with
  | nil => simp [dlookup] at hl
  | cons p rest ih =>
    simp only [List.map_cons, List.nodup_cons] at hnd
    rw [List.foldl_cons]
    by_cases h : p.1 = k
    · have hb : p.2 = b := by
        rw [dlookup, if_pos h] at hl
        exact Option.some.inj hl
      have hp : p = (k, b) := by
        cases p
        simp_all
      have hknr : k ∉ rest.map Prod.fst := h ▸ hnd.1
      rw [cgetattr_foldl_notmem step H1 rest _ k hknr, hp, H2]
    · have hl2 : dlookup rest k = some b := by
        rw [dlookup, if_neg h] at hl
        exact hl
      exact ih _ hnd.2 hl2

theorem cgetattr_foldl_skip {β : Type} (step : ConfigClass → String × β → ConfigClass)
    (H1 : ∀ cc p k, k ≠ p.1 → cgetattr (step cc p) k = cgetattr cc k)
    {k : String} {b : β}
    (H2 : ∀ cc, step cc (k, b) = cc)
    (l : List (String × β)) (c : ConfigClass)
    (hnd : (l.map Prod.fst).Nodup) (hl : dlookup l k = some b) :
    cgetattr (l.foldl step c) k = cgetattr c k := by
  induction l generalizing c with
  | nil => simp [dlookup] at hl
  | cons p rest ih =>
    simp only [List.map_cons, List.nodup_cons] at hnd
    rw [List.foldl_cons]
    by_cases h : p.1 = k
    · have hb : p.2 = b := by
        rw [dlookup, if_pos h] at hl
        exact Option.some.inj hl
      have hp : p = (k, b) := by
        cases p
        simp_all
      have hknr : k ∉ rest.map Prod.fst := h ▸ hnd.1
      rw [cgetattr_foldl_notmem step H1 rest _ k hknr, hp, H2]
    · have hl2 : dlookup rest k = some b := by
        rw [dlookup, if_neg h] at hl
        exact hl
      rw [ih _ hnd.2 hl2, H1 _ _ _ (fun e => h e.symm)]

/-! Lemmas about the override context manager. -/

theorem csetattr_comm (c : ConfigClass) (k1 k2 : String) (v1 v2 : Attr)
    (hne : k1 ≠ k2) (h2 : (cgetattr c k2).isSome) :
    csetattr (csetattr c k1 v1) k2 v2 = csetattr (csetattr c k2 v2) k1 v1 := by
  cases c with
  | mk nm attrs =>
    show (⟨nm, dinsert (dinsert attrs k1 v1) k2 v2⟩ : ConfigClass) = ⟨nm, dinsert (dinsert attrs k2 v2) k1 v1⟩
    rw [dinsert_comm v1 v2 hne h2]

theorem overrideExit_nodup (orig : List (String × Attr)) :
    ∀ c : ConfigClass, (c.attrs.map Prod.fst).Nodup →
    ((overrideExit orig c).attrs.map Prod.fst).Nodup := by
  induction orig with
  | nil => intro c h; exact h
  | cons p rest ih => intro c h; exact ih _ (csetattr_nodup c p.1 p.2 h)

theorem overrideExit_lookup_notmem (orig : List (String × Attr)) (c : ConfigClass)
    (k : String) (hk : k ∉ orig.map Prod.fst) :
    cgetattr (overrideExit orig c) k = cgetattr c k :=
  cgetattr_foldl_notmem _ (fun cc p k hk => by
    rw [cgetattr_csetattr, if_neg (fun e => hk e.symm)]) orig c k hk

theorem overrideExit_csetattr_comm (orig : List (String × Attr)) :
    ∀ (c : ConfigClass) (k : String) (v : Attr),
    k ∉ orig.map Prod.fst → (cgetattr c k).isSome →
    overrideExit orig (csetattr c k v) = csetattr (overrideExit orig c) k v := by
  induction orig with
  | nil => intro c k v _ _; rfl
  | cons p rest ih =>
    intro c k v hk hs
    simp only [List.map_cons, List.mem_cons] at hk
    push_neg at hk
    show overrideExit rest (csetattr (csetattr c k v) p.1 p.2)
        = csetattr (overrideExit rest (csetattr c p.1 p.2)) k v
    rw [← csetattr_comm c p.1 k p.2 v (fun e => hk.1 e.symm) hs]
    exact ih _ k v hk.2 (csetattr_isSome c p.1 k p.2 hs)

theorem overrideLoop_nodup (ov : List (String × PyVal)) :
    ∀ (c : ConfigClass) (orig0 orig : List (String × Attr)) (c' : ConfigClass),
    (c.attrs.map Prod.fst).Nodup →
    overrideLoop c orig0 ov = .ok (orig, c') →
    (c'.attrs.map Prod.fst).Nodup := by
  induction ov with
  | nil =>
    intro c orig0 orig c' hc h
    obtain ⟨rfl, rfl⟩ : orig0 = orig ∧ c = c' := by
      simpa [overrideLoop] using h
    exact hc
  | cons p rest ih =>
    intro c orig0 orig c' hc h
    obtain ⟨key, value⟩ := p
    simp only [overrideLoop] at h
    cases hg : cgetattr c key with
    | none => rw [hg] at h; cases h
    | some a =>
      rw [hg] at h
      exact ih _ _ _ _ (csetattr_nodup c key (.val value) hc) h

theorem overrideLoop_lookup_notmem (ov : List (String × PyVal)) :
    ∀ (c : ConfigClass) (orig0 orig : List (String × Attr)) (c' : ConfigClass) (k : String),
    k ∉ ov.map Prod.fst →
    overrideLoop c orig0 ov = .ok (orig, c') →
    cgetattr c' k = cgetattr c k := by
  induction ov with
  | nil =>
    intro c orig0 orig c' k _ h
    obtain ⟨rfl, rfl⟩ : orig0 = orig ∧ c = c' := by
      simpa [overrideLoop] using h
    rfl
  | cons p rest ih =>
    intro c orig0 orig c' k hk h
    obtain ⟨key, value⟩ := p
    simp only [List.map_cons, List.mem_cons] at hk
    push_neg at hk
    simp only [overrideLoop] at h
    cases hg : cgetattr c key with
    | none => rw [hg] at h; cases h
    | some a =>
      rw [hg] at h
      rw [ih _ _ _ _ k hk.2 h, cgetattr_csetattr, if_neg (fun e => hk.1 e.symm)]

theorem overrideLoop_sets (ov : List (String × PyVal)) :
    ∀ (c : ConfigClass) (orig0 orig : List (String × Attr)) (c' : ConfigClass),
    (ov.map Prod.fst).Nodup →
    overrideLoop c orig0 ov = .ok (orig, c') →
    ∀ p ∈ ov, cgetattr c' p.1 = some (.val p.2) := by
  induction ov with
  | nil => intro c orig0 orig c' _ _ p hp; simp at hp
  | cons q rest ih =>
    intro c orig0 orig c' hnd h p hp
    obtain ⟨key, value⟩ := q
    simp only [List.map_cons, List.nodup_cons] at hnd
    simp only [overrideLoop] at h
    cases hg : cgetattr c key with
    | none => rw [hg] at h; cases h
    | some a =>
      rw [hg] at h
      rcases List.mem_cons.1 hp with e | hp2
      · subst e
        rw [overrideLoop_lookup_notmem rest _ _ _ _ _ hnd.1 h,
            cgetattr_csetattr, if_pos rfl]
      · exact ih _ _ _ _ hnd.2 h p hp2

theorem overrideLoop_exit (ov : List (String × PyVal)) :
    ∀ (c : ConfigClass) (orig0 orig : List (String × Attr)) (c' : ConfigClass),
    (c.attrs.map Prod.fst).Nodup →
    (ov.map Prod.fst).Nodup →
    (∀ p ∈ ov, p.1 ∉ orig0.map Prod.fst) →
    overrideLoop c orig0 ov = .ok (orig, c') →
    overrideExit orig c' = overrideExit orig0 c := by
  induction ov with
  | nil =>
    intro c orig0 orig c' _ _ _ h
    obtain ⟨rfl, rfl⟩ : orig0 = orig ∧ c = c' := by
      simpa [overrideLoop] using h
    rfl
  | cons q rest ih =>
    intro c orig0 orig c' hattrs hov hdisj h
    obtain ⟨key, value⟩ := q
    simp only [List.map_cons, List.nodup_cons] at hov
    simp only [overrideLoop] at h
    cases hg : cgetattr c key with
    | none => rw [hg] at h; cases h
    | some a =>
      rw [hg] at h
      have h2 : overrideLoop (csetattr c key (Attr.val value)) (dinsert orig0 key a) rest
          = .ok (orig, c') := h
      have hkey0 : key ∉ orig0.map Prod.fst := hdisj (key, value) (List.mem_cons_self _ _)
      have hins : dinsert orig0 key a = orig0 ++ [(key, a)] :=
        dinsert_of_notmem orig0 key a (dlookup_eq_none_of_notmem orig0 key hkey0)
      rw [hins] at h2
      have hdisj2 : ∀ p ∈ rest, p.1 ∉ (orig0 ++ [(key, a)]).map Prod.fst := by
        intro p hp
        rw [List.map_append, List.mem_append]
        push_neg
        refine ⟨hdisj p (List.mem_cons_of_mem _ hp), ?_⟩
        simp only [List.map_cons, List.map_nil, List.mem_singleton]
        intro e
        exact hov.1 (e ▸ List.mem_map_of_mem Prod.fst hp)
      have ihres := ih _ _ _ _ (csetattr_nodup c key (.val value) hattrs) hov.2 hdisj2 h2
      rw [ihres]
      show overrideExit (orig0 ++ [(key, a)]) (csetattr c key (.val value)) = overrideExit orig0 c
      unfold overrideExit
      rw [List.foldl_append]
      show csetattr (overrideExit orig0 (csetattr c key (.val value))) key a = overrideExit orig0 c
      rw [overrideExit_csetattr_comm orig0 c key (.val value) hkey0 (by rw [hg]; rfl)]
      exact csetattr_cancel (overrideExit orig0 c) key a (.val value)
        (overrideExit_nodup orig0 c hattrs)
        (by rw [overrideExit_lookup_notmem orig0 c key hkey0, hg])

theorem overrideLoop_error (pre : List (String × PyVal)) :
    ∀ (c : ConfigClass) (orig0 : List (String × Attr)) (badk : String) (bv : PyVal)
      (post : List (String × PyVal)),
    (∀ p ∈ pre, (cgetattr c p.1).isSome) →
    cgetattr c badk = none →
    overrideLoop c orig0 (pre ++ (badk, bv) :: post)
      = .error ("Unknown config flag: " ++ badk,
          pre.foldl (fun cc p => csetattr cc p.1 (Attr.val p.2)) c) := by
  induction pre with
  | nil =>
    intro c orig0 badk bv post _ hbad
    simp only [List.nil_append, overrideLoop, hbad]
    rfl
  | cons q rest ih =>
    intro c orig0 badk bv post hpre hbad
    obtain ⟨key, value⟩ := q
    have hq : (cgetattr c key).isSome := hpre (key, value) (List.mem_cons_self _ _)
    obtain ⟨a, ha⟩ := Option.isSome_iff_exists.1 hq
    have hkb : ¬ key = badk := fun e => by
      rw [e, hbad] at ha
      cases ha
    simp only [List.cons_append, overrideLoop, ha]
    rw [List.foldl_cons]
    refine ih _ _ badk bv post ?_ ?_
    · intro p hp
      rw [cgetattr_csetattr]
      by_cases e : key = p.1
      · rw [if_pos e]; rfl
      · rw [if_neg e]
        exact hpre p (List.mem_cons_of_mem _ hp)
    · rw [cgetattr_csetattr, if_neg hkb]
      exact hbad

/-! Characterizations of the group-switching operations. -/

theorem set_group_error (c : ConfigClass) (g : String) (h : g ∉ c.getGroups) :
    c.set_group g = .error ("Unknown group: " ++ g) := by
  unfold ConfigClass.set_group
  rw [if_pos h]

theorem set_group_ok (c : ConfigClass) (g : String) (hg : g ∈ c.getGroups)
    (hnd : (c.getSettings.map Prod.fst).Nodup) :
    ∃ c', c.set_group g = .ok c' ∧
      (∀ p ∈ c.getSettings, cgetattr c' p.1 =
        some (.val (match dlookup p.2.group_values g with
                    | some v => v
                    | none => p.2.default))) ∧
      (∀ k, k ∉ c.getSettings.map Prod.fst → cgetattr c' k = cgetattr c k) := by
  have hne : ¬ g ∉ c.getGroups := not_not_intro hg
  unfold ConfigClass.set_group
  rw [if_neg hne]
  refine ⟨_, rfl, ?_, ?_⟩
  · intro p hp
    have hp2 : (p.1, p.2) ∈ c.getSettings := by simpa using hp
    exact cgetattr_foldl_mem _
      (fun cc q k hk => by
        cases hv : dlookup q.2.group_values g <;> simp only [hv] <;>
          rw [cgetattr_csetattr, if_neg (fun e => hk e.symm)])
      _
      (fun cc => by
        cases hv : dlookup p.2.group_values g <;> simp only [hv] <;>
          rw [cgetattr_csetattr, if_pos rfl])
      c.getSettings c hnd (dlookup_of_mem_nodup hnd hp2)
  · intro k hk
    exact cgetattr_foldl_notmem _
      (fun cc q k hk => by
        cases hv : dlookup q.2.group_values g <;> simp only [hv] <;>
          rw [cgetattr_csetattr, if_neg (fun e => hk e.symm)])
      c.getSettings c k hk

theorem reset_to_defaults_lookup (c : ConfigClass)
    (hnd : (c.getSettings.map Prod.fst).Nodup) :
    (∀ p ∈ c.getSettings, cgetattr c.reset_to_defaults p.1 = some (.val p.2.default)) ∧
    (∀ k, k ∉ c.getSettings.map Prod.fst →
      cgetattr c.reset_to_defaults k = cgetattr c k) := by
  unfold ConfigClass.reset_to_defaults
  constructor
  · intro p hp
    have hp2 : (p.1, p.2) ∈ c.getSettings := by simpa using hp
    exact cgetattr_foldl_mem _
      (fun cc q k hk => by rw [cgetattr_csetattr, if_neg (fun e => hk e.symm)])
      _
      (fun cc => by rw [cgetattr_csetattr, if_pos rfl])
      c.getSettings c hnd (dlookup_of_mem_nodup hnd hp2)
  · intro k hk
    exact cgetattr_foldl_notmem _
      (fun cc q k hk => by rw [cgetattr_csetattr, if_neg (fun e => hk e.symm)])
      c.getSettings c k hk

theorem re_match_ne_reserved (k : String) (h : re_match_setting_format k = true) :
    k ≠ "_settings" ∧ k ≠ "groups" := by
  constructor
  · intro e
    subst e
    exact absurd h (by decide)
  · intro e
    subst e
    exact absurd h (by decide)

theorem reserved_notmem_settings (c : ConfigClass)
    (hgood : ∀ p ∈ c.getSettings, re_match_setting_format p.1 = true) :
    "_settings" ∉ c.getSettings.map Prod.fst ∧
    "groups" ∉ c.getSettings.map Prod.fst := by
  constructor
  · intro hm
    obtain ⟨p, hp, e⟩ := List.mem_map.1 hm
    exact (re_match_ne_reserved p.1 (hgood p hp)).1 e
  · intro hm
    obtain ⟨p, hp, e⟩ := List.mem_map.1 hm
    exact (re_match_ne_reserved p.1 (hgood p hp)).2 e

theorem getSettings_eq_of_attr_eq (c c' : ConfigClass)
    (h : cgetattr c' "_settings" = cgetattr c "_settings") :
    c'.getSettings = c.getSettings := by
  unfold ConfigClass.getSettings
  rw [h]

/-! Supporting lemma for `parse_args`: unfolding the group phase. -/

theorem parse_args_eq (c : ConfigClass) (args : ParsedArgs) (c1 : ConfigClass)
    (h : (if c.getGroups.isEmpty then .ok c
          else if args.configuration.getD "default" = "default" then .ok c.reset_to_defaults
          else c.set_group (args.configuration.getD "default") : Except String ConfigClass)
         = .ok c1) :
    c.parse_args args = .ok (c1.getSettings.foldl
      (fun cc p =>
        match dlookup args.values (strToLower p.1) with
        | some raw =>
          csetattr cc p.1 (.val
            (if p.2.type = PyType.bool then
              PyVal.prim (.bool (raw = PyVal.prim (.str "true")))
            else raw))
        | none => cc) c1) := by
  unfold ConfigClass.parse_args
  rw [h]

/-- Claim C5: `parse_args` applies layers in precedence order — with a
nonempty `groups` list it first applies the resolved `--configuration` value
(`reset_to_defaults` when it is `"default"`, which is also the flag's
argparse default, modelled by `Option.getD`; `set_group` otherwise), and then
overwrites every setting whose flag was explicitly supplied (parsed value
non-null) with the parsed and coerced value, so explicit flags beat
group-selected values. -/
theorem c5_parse_args_precedence (c : ConfigClass) (args : ParsedArgs)
    (hnd : (c.getSettings.map Prod.fst).Nodup)
    (hgood : ∀ p ∈ c.getSettings, re_match_setting_format p.1 = true)
    (hg : c.getGroups ≠ [])
    (hconf : args.configuration.getD "default" = "default" ∨
             args.configuration.getD "default" ∈ c.getGroups) :
    ∃ c', c.parse_args args = .ok c' ∧
      ∀ p ∈ c.getSettings,
        cgetattr c' p.1 = some (.val
          (match dlookup args.values (strToLower p.1) with
           | some raw =>
             if p.2.type = PyType.bool then
               PyVal.prim (.bool (raw = PyVal.prim (.str "true")))
             else raw
           | none =>
             if args.configuration.getD "default" = "default" then p.2.default
             else
               match dlookup p.2.group_values (args.configuration.getD "default") with
               | some v => v
               | none => p.2.default)) := by
  have hemp : c.getGroups.isEmpty = false := by
    cases hgl : c.getGroups with
    | nil => exact absurd hgl hg
    | cons a l => rfl
  have hsp : "_settings" ∉ c.getSettings.map Prod.fst :=
    (reserved_notmem_settings c hgood).1
  by_cases hc : args.configuration.getD "default" = "default"
  · obtain ⟨hvals, hpres⟩ := reset_to_defaults_lookup c hnd
    have hstep : (if c.getGroups.isEmpty then .ok c
                  else if args.configuration.getD "default" = "default" then .ok c.reset_to_defaults
                  else c.set_group (args.configuration.getD "default") : Except String ConfigClass)
        = .ok c.reset_to_defaults := by
      rw [hemp, if_neg (by simp), if_pos hc]
    have hsettings : (c.reset_to_defaults).getSettings = c.getSettings :=
      getSettings_eq_of_attr_eq _ _ (hpres "_settings" hsp)
    refine ⟨_, parse_args_eq c args _ hstep, ?_⟩
    intro p hp
    rw [hsettings]
    have hp2 : (p.1, p.2) ∈ c.getSettings := by simpa using hp
    have hl : dlookup c.getSettings p.1 = some p.2 := dlookup_of_mem_nodup hnd hp2
    cases hargs : dlookup args.values (strToLower p.1) with
    | some raw =>
      rw [cgetattr_foldl_mem _
        (fun cc q k hk => by
          cases dlookup args.values (strToLower q.1) with
          | none => rfl
          | some r => exact (cgetattr_csetattr cc q.1 k _).trans (if_neg (fun e => hk e.symm)))
        (some (.val (if p.2.type = PyType.bool then
            PyVal.prim (.bool (raw = PyVal.prim (.str "true"))) else raw)))
        (fun cc => by
          show cgetattr (match dlookup args.values (strToLower p.1) with
            | some raw =>
              csetattr cc p.1 (.val
                (if p.2.type = PyType.bool then
                  PyVal.prim (.bool (raw = PyVal.prim (.str "true")))
                else raw))
            | none => cc) p.1 = _
          rw [hargs]
          exact (cgetattr_csetattr cc p.1 p.1 _).trans (if_pos rfl))
        c.getSettings _ hnd hl]
    | none =>
      rw [cgetattr_foldl_skip _
        (fun cc q k hk => by
          cases dlookup args.values (strToLower q.1) with
          | none => rfl
          | some r => exact (cgetattr_csetattr cc q.1 k _).trans (if_neg (fun e => hk e.symm)))
        (fun cc => by
          show (match dlookup args.values (strToLower p.1) with
            | some raw =>
              csetattr cc p.1 (.val
                (if p.2.type = PyType.bool then
                  PyVal.prim (.bool (raw = PyVal.prim (.str "true")))
                else raw))
            | none => cc) = cc
          rw [hargs])
        c.getSettings _ hnd hl,
        hvals p hp, if_pos hc]
  · have hgmem : args.configuration.getD "default" ∈ c.getGroups := hconf.resolve_left hc
    obtain ⟨c1, heq1, hvals, hpres⟩ := set_group_ok c _ hgmem hnd
    have hstep : (if c.getGroups.isEmpty then .ok c
                  else if args.configuration.getD "default" = "default" then .ok c.reset_to_defaults
                  else c.set_group (args.configuration.getD "default") : Except String ConfigClass)
        = .ok c1 := by
      rw [hemp, if_neg (by simp), if_neg hc]
      exact heq1
    have hsettings : c1.getSettings = c.getSettings :=
      getSettings_eq_of_attr_eq _ _ (hpres "_settings" hsp)
    refine ⟨_, parse_args_eq c args _ hstep, ?_⟩
    intro p hp
    rw [hsettings]
    have hp2 : (p.1, p.2) ∈ c.getSettings := by simpa using hp
    have hl : dlookup c.getSettings p.1 = some p.2 := dlookup_of_mem_nodup hnd hp2
    cases hargs : dlookup args.values (strToLower p.1) with
    | some raw =>
      rw [cgetattr_foldl_mem _
        (fun cc q k hk => by
          cases dlookup args.values (strToLower q.1) with
          | none => rfl
          | some r => exact (cgetattr_csetattr cc q.1 k _).trans (if_neg (fun e => hk e.symm)))
        (some (.val (if p.2.type = PyType.bool then
            PyVal.prim (.bool (raw = PyVal.prim (.str "true"))) else raw)))
        (fun cc => by
          show cgetattr (match dlookup args.values (strToLower p.1) with
            | some raw =>
              csetattr cc p.1 (.val
                (if p.2.type = PyType.bool then
                  PyVal.prim (.bool (raw = PyVal.prim (.str "true")))
                else raw))
            | none => cc) p.1 = _
          rw [hargs]
          exact (cgetattr_csetattr cc p.1 p.1 _).trans (if_pos rfl))
        c.getSettings _ hnd hl]
    | none =>
      rw [cgetattr_foldl_skip _
        (fun cc q k hk => by
          cases dlookup args.values (strToLower q.1) with
          | none => rfl
          | some r => exact (cgetattr_csetattr cc q.1 k _).trans (if_neg (fun e => hk e.symm)))
        (fun cc => by
          show (match dlookup args.values (strToLower p.1) with
            | some raw =>
              csetattr cc p.1 (.val
                (if p.2.type = PyType.bool then
                  PyVal.prim (.bool (raw = PyVal.prim (.str "true")))
                else raw))
            | none => cc) = cc
          rw [hargs])
        c.getSettings _ hnd hl,
        hvals p hp, if_neg hc]

/-- Witness for C5 at the class and argument vector of
`test_set_group_and_option_from_args`: groups `['foo','bar']`, explicit flags
`--s3 d --s4 1.5` together with `--configuration foo`. -/
theorem c5_parse_args_precedence_witness :
    ((c5cfg.getSettings.map Prod.fst).Nodup ∧
     (∀ p ∈ c5cfg.getSettings, re_match_setting_format p.1 = true) ∧
     c5cfg.getGroups ≠ [] ∧
     (c5args.configuration.getD "default" = "default" ∨
      c5args.configuration.getD "default" ∈ c5cfg.getGroups)) ∧
    (∃ c', c5cfg.parse_args c5args = .ok c' ∧
      ∀ p ∈ c5cfg.getSettings,
        cgetattr c' p.1 = some (.val
          (match dlookup c5args.values (strToLower p.1) with
           | some raw =>
             if p.2.type = PyType.bool then
               PyVal.prim (.bool (raw = PyVal.prim (.str "true")))
             else raw
           | none =>
             if c5args.configuration.getD "default" = "default" then p.2.default
             else
               match dlookup p.2.group_values (c5args.configuration.getD "default") with
               | some v => v
               | none => p.2.default))) :=
  ⟨⟨by decide, by decide, by decide, by decide⟩,
   c5_parse_args_precedence c5cfg c5args (by decide) (by decide) (by decide) (by decide)⟩

/-- Claim C6: for every declared group `g`, `set_group g` sets each setting's
current value to its `group_values` entry for `g` when present and to its
default otherwise; for a `g` that is not a declared group, `set_group` raises
the `Unknown group` domain error (and, the check preceding the mutation loop
in the source, returns without touching any attribute). -/
theorem c6_set_group_spec (c : ConfigClass) (g : String)
    (hnd : (c.getSettings.map Prod.fst).Nodup) :
    (g ∈ c.getGroups →
      ∃ c', c.set_group g = .ok c' ∧
        ∀ p ∈ c.getSettings, cgetattr c' p.1 =
          some (.val (match dlookup p.2.group_values g with
                      | some v => v
                      | none => p.2.default))) ∧
    (g ∉ c.getGroups → c.set_group g = .error ("Unknown group: " ++ g)) := by
  constructor
  · intro hg
    obtain ⟨c', heq, hvals, _⟩ := set_group_ok c g hg hnd
    exact ⟨c', heq, hvals⟩
  · intro hg
    exact set_group_error c g hg

/-- Witness for C6 at the class of `test_set_group`, for the declared group
`foo` and the undeclared name `baz`. -/
theorem c6_set_group_spec_witness :
    ((c6cfg.getSettings.map Prod.fst).Nodup ∧ "foo" ∈ c6cfg.getGroups ∧
      "baz" ∉ c6cfg.getGroups) ∧
    (∃ c', c6cfg.set_group "foo" = .ok c' ∧
      ∀ p ∈ c6cfg.getSettings, cgetattr c' p.1 =
        some (.val (match dlookup p.2.group_values "foo" with
                    | some v => v
                    | none => p.2.default))) ∧
    c6cfg.set_group "baz" = .error ("Unknown group: " ++ "baz") :=
  ⟨⟨by decide, by decide, by decide⟩,
   (c6_set_group_spec c6cfg "foo" (by decide)).1 (by decide),
   (c6_set_group_spec c6cfg "baz" (by decide)).2 (by decide)⟩

/-- Claim C4: for overrides used as scopes, exiting the scope restores
exactly the prior values captured at entry for exactly the named keys (the
source's `__exit__` ignores its exception arguments, so the same restoration
runs on normal exit and on error unwind).  With nested scopes the inner exit
restores the state produced by the outer override (hence, for shared names,
the outer scope's override value rather than the original default, and other
names held by the still-open outer scope are untouched), and the outer exit
then restores the original state. -/
theorem c4_nested_override_restore (c c1 c2 : ConfigClass)
    (ov1 ov2 : List (String × PyVal)) (o1 o2 : List (String × Attr))
    (hattrs : (c.attrs.map Prod.fst).Nodup)
    (hov1 : (ov1.map Prod.fst).Nodup) (hov2 : (ov2.map Prod.fst).Nodup)
    (h1 : c.override ov1 = .ok (o1, c1))
    (h2 : c1.override ov2 = .ok (o2, c2)) :
    overrideExit o2 c2 = c1 ∧ overrideExit o1 c1 = c ∧
    ∀ p ∈ ov1, cgetattr c1 p.1 = some (.val p.2) := by
  have hn1 : (c1.attrs.map Prod.fst).Nodup :=
    overrideLoop_nodup ov1 c [] o1 c1 hattrs h1
  refine ⟨?_, ?_, ?_⟩
  · exact overrideLoop_exit ov2 c1 [] o2 c2 hn1 hov2 (by simp) h2
  · exact overrideLoop_exit ov1 c [] o1 c1 hattrs hov1 (by simp) h1
  · exact overrideLoop_sets ov1 c [] o1 c1 hov1 h1

/-- Witness for C4 at the class of `test_nested_local_override`:
`override(FOO=100)` then, nested, `override(FOO=1000)`. -/
theorem c4_nested_override_restore_witness :
    ((c4cfg.attrs.map Prod.fst).Nodup ∧
     c4cfg.override [("FOO", PyVal.prim (.int 100))] = .ok (c4res1.1, c4res1.2) ∧
     c4res1.2.override [("FOO", PyVal.prim (.int 1000))] = .ok (c4res2.1, c4res2.2)) ∧
    (overrideExit c4res2.1 c4res2.2 = c4res1.2 ∧
     overrideExit c4res1.1 c4res1.2 = c4cfg ∧
     ∀ p ∈ [("FOO", PyVal.prim (.int 100))],
       cgetattr c4res1.2 p.1 = some (.val p.2)) :=
  ⟨⟨by decide, by rfl, by rfl⟩,
   c4_nested_override_restore c4cfg c4res1.2 c4res2.2
     [("FOO", PyVal.prim (.int 100))] [("FOO", PyVal.prim (.int 1000))]
     c4res1.1 c4res2.1 (by decide) (by decide) (by decide) (by rfl) (by rfl)⟩

/-- Counterexample for C7: on a class with settings `A = 1` and `B = 2`,
`override(A=99, NOPE=5)` raises the unknown-flag error, but the key `A`
listed before the unknown one has already been mutated to 99 — the state
before the failing call is NOT preserved for keys preceding the unknown
key. -/
theorem c7_override_partial_mutation_counterexample :
    (∃ cbad, c7cfg.override [("A", PyVal.prim (.int 99)), ("NOPE", PyVal.prim (.int 5))]
        = .error ("Unknown config flag: NOPE", cbad) ∧
      cgetattr cbad "A" = some (.val (PyVal.prim (.int 99)))) ∧
    cgetattr c7cfg "A" = some (.val (PyVal.prim (.int 1))) :=
  ⟨⟨csetattr c7cfg "A" (.val (PyVal.prim (.int 99))), by rfl, by rfl⟩, by rfl⟩

/-- Claim C7 as amended: `override` does raise a domain error at call time
when a named key is not a resolvable attribute, but the mutation is NOT
all-or-nothing: every key listed before the first unknown key has already
been set to its override value when the error is raised (keys at and after
the unknown key are untouched), because the source validates and mutates
key by key in a single loop. -/
theorem c7_override_unknown_key_amended (c : ConfigClass)
    (pre : List (String × PyVal)) (badk : String) (bv : PyVal)
    (post : List (String × PyVal))
    (hpre : ∀ p ∈ pre, (cgetattr c p.1).isSome)
    (hbad : cgetattr c badk = none)
    (hnd : (pre.map Prod.fst).Nodup) :
    c.override (pre ++ (badk, bv) :: post)
      = .error ("Unknown config flag: " ++ badk,
          pre.foldl (fun cc p => csetattr cc p.1 (Attr.val p.2)) c) ∧
    ∀ p ∈ pre,
      cgetattr (pre.foldl (fun cc p => csetattr cc p.1 (Attr.val p.2)) c) p.1
        = some (.val p.2) := by
  constructor
  · exact overrideLoop_error pre c [] badk bv post hpre hbad
  · intro p hp
    have hp2 : (p.1, p.2) ∈ pre := by simpa using hp
    exact cgetattr_foldl_mem _
      (fun cc q k hk => by rw [cgetattr_csetattr, if_neg (fun e => hk e.symm)])
      _
      (fun cc => by rw [cgetattr_csetattr, if_pos rfl])
      pre c hnd (dlookup_of_mem_nodup hnd hp2)

/-- Witness for the amended C7: `override(A=99, NOPE=5)` on the concrete
class errors out after mutating `A`. -/
theorem c7_override_unknown_key_amended_witness :
    ((∀ p ∈ [("A", PyVal.prim (.int 99))], (cgetattr c7cfg p.1).isSome) ∧
     cgetattr c7cfg "NOPE" = none) ∧
    (c7cfg.override ([("A", PyVal.prim (.int 99))] ++ ("NOPE", PyVal.prim (.int 5)) :: [])
        = .error ("Unknown config flag: " ++ "NOPE",
            [("A", PyVal.prim (.int 99))].foldl
              (fun cc p => csetattr cc p.1 (Attr.val p.2)) c7cfg) ∧
     ∀ p ∈ [("A", PyVal.prim (.int 99))],
       cgetattr ([("A", PyVal.prim (.int 99))].foldl
          (fun cc p => csetattr cc p.1 (Attr.val p.2)) c7cfg) p.1
         = some (.val p.2)) :=
  ⟨⟨by decide, by rfl⟩,
   c7_override_unknown_key_amended c7cfg [("A", PyVal.prim (.int 99))] "NOPE"
     (PyVal.prim (.int 5)) [] (by decide) (by rfl) (by decide)⟩

/-- Claim C10: the unknown-key check of `override` tests only `hasattr`, not
membership in `_settings`: any existing attribute — including a classmethod
such as `set_group` or the `groups` list — can be overridden, and the
attribute is replaced by the supplied value instead of the unknown-setting
error being raised. -/
theorem c10_override_any_attribute (c : ConfigClass) (k : String) (v : PyVal)
    (a : Attr) (h : cgetattr c k = some a) :
    c.override [(k, v)] = .ok ([(k, a)], csetattr c k (.val v)) ∧
    cgetattr (csetattr c k (.val v)) k = some (.val v) := by
  constructor
  · show overrideLoop c [] [(k, v)] = _
    simp only [overrideLoop, h]
    rfl
  · exact (cgetattr_csetattr c k k _).trans (if_pos rfl)

/-- Witness for C10: overriding the inherited classmethod attribute
`set_group` (an attribute that exists but is not a registered setting)
succeeds and replaces the method with the integer 7. -/
theorem c10_override_any_attribute_witness :
    (cgetattr c10cfg "set_group" = some Attr.method ∧
     dlookup c10cfg.getSettings "set_group" = none) ∧
    (c10cfg.override [("set_group", PyVal.prim (.int 7))]
        = .ok ([("set_group", Attr.method)],
            csetattr c10cfg "set_group" (.val (PyVal.prim (.int 7)))) ∧
     cgetattr (csetattr c10cfg "set_group" (.val (PyVal.prim (.int 7)))) "set_group"
        = some (.val (PyVal.prim (.int 7)))) :=
  ⟨⟨by rfl, by rfl⟩,
   c10_override_any_attribute c10cfg "set_group" (PyVal.prim (.int 7))
     Attr.method (by rfl)⟩

/-- Claim C1 (evaluating code at the failing input): `set_group("default")`
raises `ValueError('Unknown group: default')` on the classes of the
repository's own tests `test_set_default_group` (groups `['a','b']`) and
`test_set_default_group_without_groups` (no groups), because the source has
no special case for the `"default"` sentinel — contradicting both tests,
which expect all defaults to be restored. -/
theorem c1_set_group_default_code_bug :
    c1cfgA.set_group "default" = .error ("Unknown group: " ++ "default") ∧
    c1cfgB.set_group "default" = .error ("Unknown group: " ++ "default") ∧
    "default" ∉ c1cfgA.getGroups ∧ c1cfgB.getGroups = [] :=
  ⟨by rfl, by rfl, by decide, by rfl⟩

/-- Claim C2 (evaluating code at the failing input): `Setting` construction
succeeds for an int default but FAILS for list and dict defaults, because
`SUPPORTED_TYPES` in the source is `[int, float, str, bool, type(None)]` —
contradicting the repository's own `test_types`, which declares
`MY_LIST = setting([1, 2, 3])` and `MY_DICT = setting({...})` and expects
them to construct.  The complex-number rejection the claim also mentions
does hold. -/
theorem c2_setting_supported_types_code_bug :
    Setting.make (PyVal.prim (.int 10)) []
      = .ok ⟨PyVal.prim (.int 10), [], PyType.int⟩ ∧
    Setting.make (PyVal.list [.int 1, .int 2, .int 3]) []
      = .error "is not a supported type" ∧
    Setting.make (PyVal.dict [(.str "a", .int 1)]) []
      = .error "is not a supported type" ∧
    Setting.make (PyVal.complex 0 1) [] = .error "is not a supported type" ∧
    PyType.list ∉ SUPPORTED_TYPES ∧ PyType.dict ∉ SUPPORTED_TYPES :=
  ⟨by rfl, by rfl, by rfl, by rfl, by decide, by decide⟩

/-! Sorting lemmas for the hash/equality claims. -/

theorem mem_sortInsert (k x : String) (l : List String) :
    x ∈ sortInsert k l ↔ x = k ∨ x ∈ l := by
  induction l with
  | nil => simp [sortInsert]
  | cons a rest ih =>
    by_cases h : strLe k a = true
    · simp [sortInsert, h]
    · simp only [sortInsert, if_neg h, List.mem_cons, ih]
      tauto

theorem mem_sortStrs (x : String) (l : List String) : x ∈ sortStrs l ↔ x ∈ l := by
  induction l with
  | nil => simp [sortStrs]
  | cons a rest ih => simp [sortStrs, mem_sortInsert, ih]

theorem map_eq_map_iff_pointwise {α β : Type} (f g : α → β) (l : List α) :
    l.map f = l.map g ↔ ∀ x ∈ l, f x = g x := by
  induction l with
  | nil => simp
  | cons a rest ih => simp [List.forall_mem_cons, ih]

/-- Counterexample for C3: the classes `x` (single setting `A = 1`) and `y`
(single setting `B = 1`) compare equal and have equal hash tuples even
though they do NOT resolve to identical values over the sorted union of
their setting names (`x` has no attribute `B`), because `__hash__` hashes
only the tuple of current values in sorted-name order — the setting names
themselves are not part of the hash. -/
theorem c3_eq_ignores_names_counterexample :
    configEq c3xA c3yB = true ∧
    hashTuple c3xA = hashTuple c3yB ∧
    resolvesIdenticallyOnUnion c3xA c3yB = false ∧
    cgetattr c3xA "B" = none ∧
    cgetattr c3yB "B" = some (.val (PyVal.prim (.int 1))) :=
  ⟨by decide, by rfl, by decide, by rfl, by rfl⟩

/-- Claim C3 as amended: equality compares only the lists of current values
in sorted setting-name order (Python's hash of that tuple, modelled
injectively), so two classes with the same setting names compare equal iff
they resolve to identical values name-by-name — independent of declaration
order, and changing any current value changes the compared tuple — but the
setting names themselves do not enter the hash, so classes with different
names and coinciding value sequences also compare equal. -/
theorem c3_hash_values_only_amended (c d : ConfigClass)
    (hk : sortStrs (c.getSettings.map Prod.fst)
        = sortStrs (d.getSettings.map Prod.fst)) :
    configEq c d = true ↔
      ∀ k ∈ c.getSettings.map Prod.fst, getattrPy c k = getattrPy d k := by
  unfold configEq hashTuple
  rw [decide_eq_true_eq, ← hk, map_eq_map_iff_pointwise]
  constructor
  · intro h k hk2
    exact (h k ((mem_sortStrs k _).2 hk2)).symm
  · intro h k hk2
    exact (h k ((mem_sortStrs k _).1 hk2)).symm

/-- Witness for the amended C3 at the two classes of `test_equal` (same
settings, opposite declaration order). -/
theorem c3_hash_values_only_amended_witness :
    sortStrs (c3w1.getSettings.map Prod.fst)
        = sortStrs (c3w2.getSettings.map Prod.fst) ∧
    (configEq c3w1 c3w2 = true ↔
      ∀ k ∈ c3w1.getSettings.map Prod.fst, getattrPy c3w1 k = getattrPy c3w2 k) :=
  ⟨by rfl, c3_hash_values_only_amended c3w1 c3w2 (by rfl)⟩

/-! Declaration-time key-validation lemmas (`ConfigMeta.__new__`). -/

theorem buildNamespace_keys (groups : List String) (ns : List (String × NsVal)) :
    ∀ (settings : List (String × Setting)) (newns : Attrs)
      (tbl : List (String × Setting)) (a : Attrs),
    buildNamespace groups ns settings newns = .ok (tbl, a) →
    ∀ k ∈ tbl.map Prod.fst,
      re_match_setting_format k = true ∨ k ∈ settings.map Prod.fst := by
  induction ns with
  | nil =>
    intro settings newns tbl a h k hk
    obtain ⟨rfl, rfl⟩ : settings = tbl ∧ newns = a := by
      simpa [buildNamespace] using h
    exact Or.inr hk
  | cons q rest ih =>
    intro settings newns tbl a h k hk
    obtain ⟨key, v⟩ := q
    by_cases hg : key = "groups"
    · have h2 : buildNamespace groups rest settings newns = .ok (tbl, a) := by
        rw [← h]
        show buildNamespace groups rest settings newns
            = (if key = "groups" then buildNamespace groups rest settings newns else _)
        rw [if_pos hg]
      exact ih settings newns tbl a h2 k hk
    · cases v with
      | settingDecl st =>
        have h2 : (if re_match_setting_format key = true then
              if ((st.group_values.map Prod.fst).all
                  (fun g => decide (g ∈ groups))) = true then
                buildNamespace groups rest (dinsert settings key st)
                  (dinsert newns key (Attr.val st.default))
              else Except.error
                "Undefined groups, did you set groups = [...] in your config class?"
            else Except.error "Settings must be in the format [A-Z][A-Z0-9_]*")
            = Except.ok (tbl, a) := by
          rw [← h]
          show _ = (if key = "groups" then buildNamespace groups rest settings newns else _)
          rw [if_neg hg]
        by_cases hre : re_match_setting_format key = true
        · rw [if_pos hre] at h2
          by_cases hug : ((st.group_values.map Prod.fst).all
              (fun g => decide (g ∈ groups))) = true
          · rw [if_pos hug] at h2
            rcases ih _ _ tbl a h2 k hk with hr | hmem
            · exact Or.inl hr
            · rcases (mem_map_fst_dinsert settings key k st).1 hmem with e | hm2
              · exact Or.inl (by rw [e]; exact hre)
              · exact Or.inr hm2
          · rw [if_neg hug] at h2
            cases h2
        · rw [if_neg hre] at h2
          cases h2
      | plain pv =>
        have h2 : (if (!startsWithUnderscore key
              && (dlookup settings key).isNone) = true then
              if re_match_setting_format key = true then
                match Setting.make pv [] with
                | Except.ok st =>
                  buildNamespace groups rest (dinsert settings key st)
                    (dinsert newns key (Attr.val pv))
                | Except.error e => Except.error e
              else Except.error "Settings must be in the format [A-Z][A-Z0-9_]*"
            else buildNamespace groups rest settings
              (dinsert newns key (NsVal.plain pv).asAttr))
            = Except.ok (tbl, a) := by
          rw [← h]
          show _ = (if key = "groups" then buildNamespace groups rest settings newns else _)
          rw [if_neg hg]
        by_cases hguard : (!startsWithUnderscore key
            && (dlookup settings key).isNone) = true
        · rw [if_pos hguard] at h2
          by_cases hre : re_match_setting_format key = true
          · rw [if_pos hre] at h2
            cases hmk : Setting.make pv [] with
            | ok st =>
              rw [hmk] at h2
              have h3 : buildNamespace groups rest (dinsert settings key st)
                  (dinsert newns key (Attr.val pv)) = .ok (tbl, a) := h2
              rcases ih _ _ tbl a h3 k hk with hr | hmem
              · exact Or.inl hr
              · rcases (mem_map_fst_dinsert settings key k st).1 hmem with e | hm2
                · exact Or.inl (by rw [e]; exact hre)
                · exact Or.inr hm2
            | error e =>
              rw [hmk] at h2
              exact absurd h2 (by simp)
          · rw [if_neg hre] at h2
            cases h2
        · rw [if_neg hguard] at h2
          exact ih _ _ tbl a h2 k hk
      | method =>
        have h2 : buildNamespace groups rest settings
            (dinsert newns key NsVal.method.asAttr) = .ok (tbl, a) := by
          rw [← h]
          show _ = (if key = "groups" then buildNamespace groups rest settings newns else _)
          rw [if_neg hg]
        exact ih _ _ tbl a h2 k hk
      | groupsDecl gs =>
        have h2 : buildNamespace groups rest settings
            (dinsert newns key (NsVal.groupsDecl gs).asAttr) = .ok (tbl, a) := by
          rw [← h]
          show _ = (if key = "groups" then buildNamespace groups rest settings newns else _)
          rw [if_neg hg]
        exact ih _ _ tbl a h2 k hk
      | settingsDecl t =>
        have h2 : buildNamespace groups rest settings
            (dinsert newns key (NsVal.settingsDecl t).asAttr) = .ok (tbl, a) := by
          rw [← h]
          show _ = (if key = "groups" then buildNamespace groups rest settings newns else _)
          rw [if_neg hg]
        exact ih _ _ tbl a h2 k hk

theorem dlookup_mroFlatten_of_isSome (bases : List ConfigClass) :
    ∀ (own : Attrs) (k : String), (dlookup own k).isSome →
    dlookup (mroFlatten own bases) k = dlookup own k := by
  unfold mroFlatten
  induction bases with
  | nil => intro own k _; rfl
  | cons b rest ih =>
    intro own k h
    rw [List.foldl_cons]
    have happ : dlookup (own ++ b.attrs.filter
        (fun p => (dlookup own p.1).isNone)) k = dlookup own k := by
      rw [dlookup_append]
      obtain ⟨a, ha⟩ := Option.isSome_iff_exists.1 h
      rw [ha]
    rw [ih _ k (by rw [happ]; exact h), happ]

theorem mkConfigClass_keys (name : String) (bases : List ConfigClass)
    (ns : List (String × NsVal)) (cls : ConfigClass)
    (hns : dlookup ns "_settings" = none)
    (h : mkConfigClass name bases ns = .ok cls) :
    ∀ p ∈ cls.getSettings, re_match_setting_format p.1 = true := by
  unfold mkConfigClass at h
  cases hb : buildNamespace (namespaceGroups ns) ns (namespaceSettings ns)
      [("groups", Attr.groupsAttr (namespaceGroups ns)),
       ("_settings", Attr.settingsAttr (namespaceSettings ns))] with
  | error e =>
    simp only [hb] at h
    cases h
  | ok pr =>
    obtain ⟨tbl, newns⟩ := pr
    simp only [hb] at h
    have hcls : cls = ⟨name,
        mroFlatten (dinsert newns "_settings" (Attr.settingsAttr tbl)) bases⟩ := by
      cases h
      rfl
    subst hcls
    have hown : dlookup (dinsert newns "_settings" (Attr.settingsAttr tbl)) "_settings"
        = some (Attr.settingsAttr tbl) := by
      rw [dlookup_dinsert, if_pos rfl]
    have hset : (⟨name,
        mroFlatten (dinsert newns "_settings" (Attr.settingsAttr tbl)) bases⟩ :
        ConfigClass).getSettings = tbl := by
      unfold ConfigClass.getSettings cgetattr
      rw [dlookup_mroFlatten_of_isSome bases _ "_settings" (by rw [hown]; rfl), hown]
    rw [hset]
    intro p hp
    have hk : p.1 ∈ tbl.map Prod.fst := List.mem_map_of_mem Prod.fst hp
    rcases buildNamespace_keys _ ns _ _ tbl newns hb p.1 hk with hr | hmem
    · exact hr
    · rw [show namespaceSettings ns = [] by
        unfold namespaceSettings
        rw [hns]] at hmem
      simp at hmem

/-- Counterexample for C8: declaring the shorthand `Xabc = 5` SUCCEEDS and
registers `Xabc` in `_settings`, although `Xabc` does not fully match
`[A-Z][A-Z0-9_]*` — because `_validate_setting_key` uses `re.match`, which
only requires a prefix of the name to match the pattern. -/
theorem c8_prefix_match_counterexample :
    mkConfigClass "config" [ConfigBase] [("Xabc", .plain (PyVal.prim (.int 5)))]
      = .ok c8cfg ∧
    "Xabc" ∈ c8cfg.getSettings.map Prod.fst ∧
    cgetattr c8cfg "Xabc" = some (.val (PyVal.prim (.int 5))) ∧
    fullmatch_setting_format "Xabc" = false ∧
    re_match_setting_format "Xabc" = true :=
  ⟨by rfl, by decide, by rfl, by decide, by decide⟩

/-- Claim C8 as amended: because validation uses `re.match` (prefix match),
every name registered in `_settings` (on a class declared without an
explicit `_settings` entry) matches `[A-Z][A-Z0-9_]*` only as a PREFIX —
i.e. begins with an uppercase ASCII letter — and declaring a setting whose
name fails even the prefix match (e.g. one starting with a lowercase letter)
raises the fatal validation error; but a name with lowercase characters
after an uppercase first character, such as `Xabc`, is accepted. -/
theorem c8_name_validation_amended :
    (∀ (name : String) (bases : List ConfigClass) (ns : List (String × NsVal))
       (cls : ConfigClass),
      dlookup ns "_settings" = none → mkConfigClass name bases ns = .ok cls →
      ∀ p ∈ cls.getSettings, re_match_setting_format p.1 = true) ∧
    (∀ (name : String) (bases : List ConfigClass) (key : String) (st : Setting)
       (rest : List (String × NsVal)),
      key ≠ "groups" → re_match_setting_format key = false →
      mkConfigClass name bases ((key, NsVal.settingDecl st) :: rest)
        = .error "Settings must be in the format [A-Z][A-Z0-9_]*") := by
  constructor
  · exact mkConfigClass_keys
  · intro name bases key st rest hg hre
    have hre2 : ¬ re_match_setting_format key = true := by
      rw [hre]
      exact Bool.false_ne_true
    have hb : buildNamespace
        (namespaceGroups ((key, NsVal.settingDecl st) :: rest))
        ((key, NsVal.settingDecl st) :: rest)
        (namespaceSettings ((key, NsVal.settingDecl st) :: rest))
        [("groups", Attr.groupsAttr (namespaceGroups ((key, NsVal.settingDecl st) :: rest))),
         ("_settings", Attr.settingsAttr (namespaceSettings ((key, NsVal.settingDecl st) :: rest)))]
        = .error "Settings must be in the format [A-Z][A-Z0-9_]*" := by
      show (if key = "groups" then _ else _) = _
      rw [if_neg hg]
      show (if re_match_setting_format key = true then _ else _)
          = Except.error "Settings must be in the format [A-Z][A-Z0-9_]*"
      rw [if_neg hre2]
    unfold mkConfigClass
    simp only [hb]

/-- Witness for the amended C8: the `Xabc = 5` class has only prefix-valid
registered names, and a class body starting with `adsf = setting(123)`
(cf. `test_badly_cased_setting`) fails declaration. -/
theorem c8_name_validation_amended_witness :
    (dlookup ([("Xabc", NsVal.plain (PyVal.prim (.int 5)))]) "_settings" = none ∧
     mkConfigClass "config" [ConfigBase] [("Xabc", NsVal.plain (PyVal.prim (.int 5)))]
       = .ok c8cfg ∧
     "adsf" ≠ "groups" ∧ re_match_setting_format "adsf" = false) ∧
    (∀ p ∈ c8cfg.getSettings, re_match_setting_format p.1 = true) ∧
    mkConfigClass "config" [ConfigBase] [("adsf", NsVal.settingDecl c8set)]
      = .error "Settings must be in the format [A-Z][A-Z0-9_]*" :=
  ⟨⟨by rfl, by rfl, by decide, by decide⟩,
   c8_name_validation_amended.1 "config" [ConfigBase]
     [("Xabc", NsVal.plain (PyVal.prim (.int 5)))] c8cfg (by rfl) (by rfl),
   c8_name_validation_amended.2 "config" [ConfigBase] "adsf" c8set []
     (by decide) (by decide)⟩

/-- Counterexample for C9: `Parent` registers the setting `A`, but the child
declared as `class Child(Parent): pass` has an EMPTY `_settings` table — the
metaclass builds `settings` from `namespace.get('_settings', {})` of the new
class body, which starts fresh, so the inherited registration table is
discarded rather than extended (the value of `A` remains visible only as an
ordinary inherited attribute). -/
theorem c9_inherited_settings_discarded_counterexample :
    dlookup c9parent.getSettings "A"
      = some (exSetting (Setting.make (PyVal.prim (.int 1)) [])) ∧
    mkConfigClass "Child" [c9parent] [] = .ok c9child ∧
    c9child.getSettings = [] ∧
    cgetattr c9child "A" = some (.val (PyVal.prim (.int 1))) :=
  ⟨by rfl, by rfl, by rfl, by rfl⟩

/-- Claim C9 as amended: a configuration class declared by inheriting with an
empty body gets a FRESH, empty `_settings` table — the parent's registered
settings are not carried into the child's table; the parent's attributes
(including its settings' current values) remain visible on the child only
through ordinary attribute inheritance. -/
theorem c9_child_settings_amended (P : ConfigClass) (name : String)
    (ch : ConfigClass) (h : mkConfigClass name [P] [] = .ok ch) :
    ch.getSettings = [] ∧
    ∀ k a, k ≠ "groups" → k ≠ "_settings" → dlookup P.attrs k = some a →
      cgetattr ch k = some a := by
  have hcomp : mkConfigClass name [P] [] =
      .ok ⟨name, ("groups", Attr.groupsAttr []) :: ("_settings", Attr.settingsAttr [])
        :: P.attrs.filter (fun p => (dlookup
            [("groups", Attr.groupsAttr []), ("_settings", Attr.settingsAttr [])]
            p.1).isNone)⟩ := rfl
  rw [hcomp] at h
  have hch : ch = ⟨name, ("groups", Attr.groupsAttr []) :: ("_settings", Attr.settingsAttr [])
      :: P.attrs.filter (fun p => (dlookup
          [("groups", Attr.groupsAttr []), ("_settings", Attr.settingsAttr [])]
          p.1).isNone)⟩ := by
    cases h
    rfl
  subst hch
  constructor
  · rfl
  · intro k a hkg hks hP
    show dlookup (("groups", Attr.groupsAttr []) :: ("_settings", Attr.settingsAttr [])
        :: P.attrs.filter (fun p => (dlookup
            [("groups", Attr.groupsAttr []), ("_settings", Attr.settingsAttr [])]
            p.1).isNone)) k = some a
    rw [dlookup, if_neg (fun e => hkg e.symm), dlookup, if_neg (fun e => hks e.symm)]
    have hpred : ∀ p : String × Attr, p.1 = k →
        ((dlookup [("groups", Attr.groupsAttr []), ("_settings", Attr.settingsAttr [])]
          p.1).isNone) = true := by
      intro p hp
      rw [hp, dlookup, if_neg (fun e => hkg e.symm), dlookup,
          if_neg (fun e => hks e.symm)]
      rfl
    rw [dlookup_filter_key P.attrs k _ hpred]
    exact hP

/-- Witness for the amended C9 at the concrete `Parent`/`Child` pair. -/
theorem c9_child_settings_amended_witness :
    (mkConfigClass "Child" [c9parent] [] = .ok c9child ∧
     dlookup c9parent.attrs "A" = some (.val (PyVal.prim (.int 1)))) ∧
    (c9child.getSettings = [] ∧
     ∀ k a, k ≠ "groups" → k ≠ "_settings" → dlookup c9parent.attrs k = some a →
       cgetattr c9child k = some a) :=
  ⟨⟨by rfl, by rfl⟩, c9_child_settings_amended c9parent "Child" c9child (by rfl)⟩
